import Mathlib

set_option maxHeartbeats 1000000

/-!
Shallow embedding of the `the_amazing_connect_four` repository, covering the
parts the claims speak about:

* `src/rsallms/solvers/gvc_2.py` — the `GVCSolver` class: the bounded-retry
  negotiation loop `guess`, the reply parsers `parse_guesser_reply`,
  `parse_validator_reply`, `parse_consensus_reply`, and the feedback store
  `self.guesses`.
* `src/rsallms/endpoints.py` — `Endpoint.__post_init__`.
* `src/rsallms/metrics.py` — `Metrics.add_solve`.

Python strings are modelled as `List Char` (`Str`), and the Python string
methods used by the source (`strip`, `split`, `replace`, `startswith`,
`lower`, substring membership, `join`) are given explicit structural models
below, so that everything reduces in the kernel.  The three LLM agents are
external collaborators; their successive raw replies are modelled by an
oracle `Nat → Option Str` indexed by the number of agent queries issued so
far (`none` models a reply from which `_extract_reply_str` cannot extract a
string).
-/

abbrev Str := List Char

def String.chars (s : String) : Str := s.data

/-- Model of Python `str.isspace` characters relevant to `str.strip()`:
space, tab, newline, carriage return, vertical tab, form feed. -/
def pyIsSpace (c : Char) : Bool :=
  c = ' ' || c = '\t' || c = '\n' || c = '\r' || c = Char.ofNat 11 || c = Char.ofNat 12

def pyStripLeft : Str → Str
  | [] => []
  | c :: cs => if pyIsSpace c then pyStripLeft cs else c :: cs

/-- Model of Python `str.strip()` (no argument): drop whitespace from both ends. -/
def pyStrip (s : Str) : Str :=
  (pyStripLeft (pyStripLeft s).reverse).reverse

/-- Model of Python `str.split(sep)` for a one-character separator: split at
every occurrence of `sep`, keeping empty pieces; the result is never empty. -/
def pySplitChar (sep : Char) : Str → List Str
  | [] => [[]]
  | c :: cs =>
    if c = sep then [] :: pySplitChar sep cs
    else
      match pySplitChar sep cs with
      | [] => [[c]]
      | r :: rs => (c :: r) :: rs

/-- Model of Python `sep.join(xs)`. -/
def pyJoin (sep : Str) : List Str → Str
  | [] => []
  | [x] => x
  | x :: y :: rest => x ++ sep ++ pyJoin sep (y :: rest)

def pyReplaceFuel (pat rep : Str) : Nat → Str → Str
  | 0, s => s
  | _ + 1, [] => []
  | fuel + 1, c :: cs =>
    if pat ≠ [] && pat.isPrefixOf (c :: cs) then
      rep ++ pyReplaceFuel pat rep fuel ((c :: cs).drop pat.length)
    else
      c :: pyReplaceFuel pat rep fuel cs

/-- Model of Python `s.replace(pat, rep)` for nonempty `pat`: replace every
non-overlapping occurrence, scanning left to right. -/
def pyReplace (pat rep s : Str) : Str := pyReplaceFuel pat rep s.length s

/-- Model of Python `str.lower()` (ASCII fragment). -/
def pyLower (s : Str) : Str := s.map Char.toLower

/-- Model of Python `needle in haystack` on strings: substring test. -/
def pyContainsSub (needle : Str) : Str → Bool
  | [] => needle.isPrefixOf []
  | c :: cs => needle.isPrefixOf (c :: cs) || pyContainsSub needle cs

/-!  The reply parsers of `GVCSolver` (gvc_2.py lines 255-317). -/

/-- The words extracted from a `Group:` line: Python
`[word.strip() for word in group_line.replace('Group:', '').split(',')]`. -/
def groupWordsOf (group_line : Str) : List Str :=
  (pySplitChar ',' (pyReplace ("Group:".chars) [] group_line)).map pyStrip

/-- The category extracted from a `Category:` line: Python
`category_line.replace('Category:', '').strip()`. -/
def categoryOf (category_line : Str) : Str :=
  pyStrip (pyReplace ("Category:".chars) [] category_line)

/-- The first line of the stripped reply starting with the given marker, as
Python `next((line for line in reply.strip().split('\n') if line.startswith(marker)), '')`,
as an `Option` (`none` for the `''` default). -/
def findMarkedLine (marker : Str) (reply : Str) : Option Str :=
  (pySplitChar '\n' (pyStrip reply)).find? (fun l => marker.isPrefixOf l)

/-- Model of `GVCSolver.parse_guesser_reply` (gvc_2.py lines 255-280). -/
def parse_guesser_reply (reply : Str) : Except Str (List Str × Str) :=
  let group_line := (findMarkedLine ("Group:".chars) reply).getD []
  let category_line := (findMarkedLine ("Category:".chars) reply).getD []
  if group_line = [] ∧ category_line = [] then
    .error ("GuesserAgent\x27s reply is missing both \x27Group\x27 and \x27Category\x27.".chars)
  else if group_line = [] then
    .error ("GuesserAgent\x27s reply is missing \x27Group\x27.".chars)
  else if category_line = [] then
    .error ("GuesserAgent\x27s reply is missing \x27Category\x27.".chars)
  else
    let group := groupWordsOf group_line
    let category := categoryOf category_line
    if group.length ≠ 4 then
      .error ("GuesserAgent\x27s group contains ".chars ++ (toString group.length).chars
        ++ " words; expected exactly 4.".chars)
    else
      .ok (group, category)

/-- Model of `GVCSolver.parse_validator_reply` (gvc_2.py lines 282-301). -/
def parse_validator_reply (reply : Str) : Except Str (List Str) :=
  let group_line := (findMarkedLine ("Group:".chars) reply).getD []
  if group_line = [] then
    .error ("ValidatorAgent\x27s reply is missing \x27Group\x27.".chars)
  else
    let group := groupWordsOf group_line
    if group.length ≠ 4 then
      .error ("ValidatorAgent\x27s group does not contain exactly 4 words.".chars)
    else
      .ok group

/-- Model of `GVCSolver.parse_consensus_reply` (gvc_2.py lines 303-317):
unexpected replies count as consensus not reached. -/
def parse_consensus_reply (reply : Str) : Bool :=
  let normalized := pyLower (pyStrip reply)
  if pyContainsSub ("consensus reached".chars) normalized then true
  else if pyContainsSub ("consensus not reached".chars) normalized then false
  else false

/-!  The feedback store `self.guesses` (a Python dict preserving insertion
order, modelled as an association list with distinct-key updates). -/

abbrev Guesses := List (Str × List (List Str))

/-- Association-list lookup, as Python `d[k]` combined with `k in d`
(first entry with the given key). -/
def lookupA {α : Type} : List (Str × α) → Str → Option α
  | [], _ => none
  | (k, v) :: rest, c => if k = c then some v else lookupA rest c

/-- Model of gvc_2.py lines 192-194 / 200-202:
`if cat not in self.guesses: self.guesses[cat] = []` followed by
`self.guesses[cat].append(tuple(grp))`. -/
def recordGuess : Guesses → Str → List Str → Guesses
  | [], cat, grp => [(cat, [grp])]
  | (k, gs) :: rest, cat, grp =>
    if k = cat then (k, gs ++ [grp]) :: rest
    else (k, gs) :: recordGuess rest cat grp

/-- The (category, word group) pair is present in the feedback store. -/
def pairMem (g : Guesses) (cat : Str) (grp : List Str) : Prop :=
  ∃ gs, lookupA g cat = some gs ∧ grp ∈ gs

/-!  Feedback construction (gvc_2.py lines 90-106). -/

/-- Python `list(set(entire_game_board) - set(remaining_words))`.  The
iteration order of a Python set is unspecified; this model fixes the order
of first occurrence in `entire`. -/
def successfulWords (remaining entire : List Str) : List Str :=
  (entire.filter (fun w => !(remaining.contains w))).eraseDups

/-- Python `'(' + ', '.join(group) + ')'`. -/
def pyGroupParen (group : List Str) : Str :=
  "(".chars ++ pyJoin (", ".chars) group ++ ")".chars

/-- Python `'; '.join(['(' + ', '.join(group) + ')' for group in word_groups])`. -/
def wordGroupsStr (word_groups : List (List Str)) : Str :=
  pyJoin ("; ".chars) (word_groups.map pyGroupParen)

/-- The feedback line for one entry of `self.guesses`:
Python `f"  * {category}: {word_groups_str}\n"`. -/
def feedbackEntry (category : Str) (word_groups : List (List Str)) : Str :=
  "  * ".chars ++ category ++ ": ".chars ++ wordGroupsStr word_groups ++ "\n".chars

/-- Python `repr` of a list of plain strings, as produced by the f-string
`f"...: {successful}\n"` (single-quoted items). -/
def pyStrListRepr (xs : List Str) : Str :=
  "[".chars ++ pyJoin (", ".chars) (xs.map (fun s => "\x27".chars ++ s ++ "\x27".chars)) ++ "]".chars

/-- Model of the feedback block built at gvc_2.py lines 96-106 (the redundant
inner `if self.guesses:` of the source is kept). -/
def mkFeedback (guesses : Guesses) (successful : List Str) : Str :=
  if guesses = [] then []
  else
    "Note:\n".chars
    ++ (if guesses = [] then []
        else
          "- Be aware that the following category and word group pairs either do not match or the category isn\x27t specific enough. Do not repeat them!:\n".chars
          ++ (guesses.map (fun p => feedbackEntry p.1 p.2)).flatten)
    ++ (if successful = [] then []
        else
          "- Ensure that your guessed category does not encompass any of these words: ".chars
          ++ pyStrListRepr successful ++ "\n".chars)

/-!  The three prompts (gvc_2.py lines 109-129, 142-165, 178-183). -/

/-- The guesser prompt after the `f"{feedback}\n"` head (gvc_2.py 109-129). -/
def guesserPromptTail (remaining_str : Str) (group_size : Nat) : Str :=
  "Words: ".chars ++ remaining_str ++ "\n\n".chars
  ++ "**Objective:**\n".chars
  ++ "Find a group of ".chars ++ (toString group_size).chars
  ++ " related words from the list above and provide a specific category that unambiguously describes the relationship between these words. The category should be as precise as possible to avoid any confusion with other words or potential categories.\n\n".chars
  ++ "**Guidelines:**\n".chars
  ++ "- Categories must be more specific than broad classifications like \x27Names\x27, \x27Verbs\x27, or \x275-Letter Words\x27.\n".chars
  ++ "- Each word in the group should clearly fit the category without overlapping into multiple categories. Be aware of common phrases, word play, and words with multiple meanings.\n".chars
  ++ "- Avoid categories that are too vague or general and might encompass other words. Categories should be as specific as possible.\n\n".chars
  ++ "**Examples:**\n".chars
  ++ "1. **Group:** Bass, Flounder, Salmon, Trout\n".chars
  ++ "   **Category:** Fish\n\n".chars
  ++ "2. **Group:** Ant, Drill, Island, Opal\n".chars
  ++ "   **Category:** Fire ___\n\n".chars
  ++ "**Format Your Response As Follows:**\n".chars
  ++ "\x60\x60\x60\n".chars
  ++ "Group: word1, word2, word3, word4\n".chars
  ++ "Category: category_name\n".chars
  ++ "\x60\x60\x60\n".chars
  ++ "Ensure there is no additional text or explanation beyond the specified format.".chars

/-- Full guesser prompt: `f"{feedback}\n..."`. -/
def guesserPrompt (feedback remaining_str : Str) (group_size : Nat) : Str :=
  feedback ++ "\n".chars ++ guesserPromptTail remaining_str group_size

/-- The validator prompt after the `f"{feedback}\n"` head (gvc_2.py 142-165). -/
def validatorPromptTail (remaining_str guesser_category : Str) : Str :=
  "**Words:** ".chars ++ remaining_str ++ "\n".chars
  ++ "**Category:** ".chars ++ guesser_category ++ "\n\n".chars
  ++ "**Objective:**\n".chars
  ++ "Identify the four words from the list above that belong to the specified category. Ensure that each selected word clearly fits the category without ambiguity.\n\n".chars
  ++ "**Guidelines:**\n".chars
  ++ "- The category is already provided and is specific. Focus solely on selecting the words that best match this category. Be aware of word play and words with multiple meanings.\n".chars
  ++ "- Each word should unambiguously fit the category. Avoid selecting words that could belong to multiple categories unless they are a perfect fit.\n".chars
  ++ "- Ensure that exactly four words are selected. Do not include more or fewer words.\n".chars
  ++ "- Avoid using additional explanations or commentary. Only provide the required output in the specified format.\n\n".chars
  ++ "**Examples:**\n".chars
  ++ "1. **Category:** Fish\n".chars
  ++ "   **Words:** Bass, Flounder, Salmon, Trout, Ant, Drill, Island, Opal\n".chars
  ++ "   **Group:** Bass, Flounder, Salmon, Trout\n\n".chars
  ++ "2. **Category:** Fire ___\n".chars
  ++ "   **Words:** Ant, Drill, Island, Opal, Fire, Water, Earth, Air\n".chars
  ++ "   **Group:** Ant, Drill, Island, Opal\n\n".chars
  ++ "**Format Your Response As Follows:**\n".chars
  ++ "\x60\x60\x60\n".chars
  ++ "Group: word1, word2, word3, word4\n".chars
  ++ "\x60\x60\x60\n".chars
  ++ "Ensure there is no additional text or explanation beyond the specified format.".chars

/-- Full validator prompt: `f"{feedback}\n..."`. -/
def validatorPrompt (feedback remaining_str guesser_category : Str) : Str :=
  feedback ++ "\n".chars ++ validatorPromptTail remaining_str guesser_category

/-- The consensus prompt (gvc_2.py 178-183). -/
def consensusPrompt (guesser_group validator_group : List Str) : Str :=
  "Guesser Group: ".chars ++ pyJoin (", ".chars) guesser_group ++ "\n".chars
  ++ "Validator Group: ".chars ++ pyJoin (", ".chars) validator_group ++ "\n".chars
  ++ "Determine if both groups contain exactly the same words, regardless of order.\n".chars
  ++ "Respond with \x27Consensus reached\x27 if they are identical, or \x27Consensus not reached\x27 otherwise.".chars

/-!  The agent-reply plumbing and one attempt of the loop. -/

/-- The successive raw agent replies, indexed by the number of agent queries
issued so far in the life of the solver run.  `none` models a reply from
which `_extract_reply_str` cannot extract a string (gvc_2.py 234-253). -/
abbrev Oracle := Nat → Option Str

/-- Model of `GVCSolver._get_agent_reply` (gvc_2.py 211-232): an extraction
failure or an empty extracted string raises `ValueError`. -/
def getAgentReply (r : Option Str) (agent_name : Str) : Except Str Str :=
  match r with
  | none => .error (agent_name ++ " failed to generate a valid reply.".chars)
  | some s =>
    if s = [] then .error (agent_name ++ " failed to generate a valid reply.".chars)
    else .ok s

inductive Agent
  | guesser
  | validator
  | consensus
deriving DecidableEq, Repr

/-- One agent query issued by an attempt: which agent, and the user prompt. -/
structure Query where
  agent : Agent
  prompt : Str
deriving DecidableEq, Repr

/-- How one iteration of the retry loop ends: return from `guess`, fall
through to the next attempt, or propagate a `ValueError`. -/
inductive AttemptEnd
  | retEnd (group : List Str) (category : Str)
  | contEnd (group : List Str) (category : Str)
  | raiseEnd (msg : Str)
deriving DecidableEq, Repr

/-- Record of one executed iteration of the retry loop. -/
structure AttemptRec where
  startGuesses : Guesses
  feedback : Str
  queries : List Query
  gParse : Option (List Str × Str)
  vParse : Option (List Str)
  consensus : Option Bool
  ending : AttemptEnd
deriving Repr

/-- One iteration of the retry loop of `GVCSolver.guess` (gvc_2.py 89-206):
given the oracle, the index of the next agent query, and the current
`self.guesses`, produce the record of the iteration, the new `self.guesses`,
and the next query index. -/
def attempt (o : Oracle) (k : Nat) (g : Guesses)
    (remaining entire : List Str) (group_size : Nat) :
    AttemptRec × Guesses × Nat :=
  let remaining_str := pyJoin (", ".chars) remaining
  let successful := successfulWords remaining entire
  let feedback := mkFeedback g successful
  let gp := guesserPrompt feedback remaining_str group_size
  let gq : Query := ⟨.guesser, gp⟩
  match getAgentReply (o k) ("GuesserAgent".chars) with
  | .error m => (⟨g, feedback, [gq], none, none, none, .raiseEnd m⟩, g, k + 1)
  | .ok greply =>
    match parse_guesser_reply greply with
    | .error m => (⟨g, feedback, [gq], none, none, none, .raiseEnd m⟩, g, k + 1)
    | .ok (guesser_group, guesser_category) =>
      let vp := validatorPrompt feedback remaining_str guesser_category
      let vq : Query := ⟨.validator, vp⟩
      match getAgentReply (o (k + 1)) ("ValidatorAgent".chars) with
      | .error m =>
          (⟨g, feedback, [gq, vq], some (guesser_group, guesser_category), none, none,
            .raiseEnd m⟩, g, k + 2)
      | .ok vreply =>
        match parse_validator_reply vreply with
        | .error m =>
            (⟨g, feedback, [gq, vq], some (guesser_group, guesser_category), none, none,
              .raiseEnd m⟩, g, k + 2)
        | .ok validator_group =>
          let cp := consensusPrompt guesser_group validator_group
          let cq : Query := ⟨.consensus, cp⟩
          match getAgentReply (o (k + 2)) ("ConsensusAgent".chars) with
          | .error m =>
              (⟨g, feedback, [gq, vq, cq], some (guesser_group, guesser_category),
                some validator_group, none, .raiseEnd m⟩, g, k + 3)
          | .ok creply =>
            let consensus_result := parse_consensus_reply creply
            let g2 := recordGuess g guesser_category guesser_group
            if consensus_result then
              (⟨g, feedback, [gq, vq, cq], some (guesser_group, guesser_category),
                some validator_group, some true, .retEnd guesser_group guesser_category⟩,
               g2, k + 3)
            else
              (⟨g, feedback, [gq, vq, cq], some (guesser_group, guesser_category),
                some validator_group, some false, .contEnd guesser_group guesser_category⟩,
               g2, k + 3)

/-- `raise ValueError("Consensus not reached after maximum retries. Unable to make a guess.")`. -/
def maxRetryMsg : Str :=
  "Consensus not reached after maximum retries. Unable to make a guess.".chars

/-- The outcome of a call of `GVCSolver.guess`: the returned value or the
raised `ValueError`, the final `self.guesses`, the records of the executed
attempts in order, and the index of the next agent query. -/
structure RunOut where
  result : Except Str (List Str × Str)
  guesses : Guesses
  trace : List AttemptRec
  nextIdx : Nat

/-- The retry loop of `GVCSolver.guess`, by the number of attempts still
allowed.  With `n + 1` attempts left, a consensus failure at `n = 0` is the
`attempt == max_retries` raise of gvc_2.py 203-205; the fuel-0 base case is
the unreachable raise after the loop (gvc_2.py 209). -/
def guessLoop (o : Oracle) (remaining entire : List Str) (group_size : Nat) :
    Nat → Nat → Guesses → RunOut
  | 0, k, g => ⟨.error maxRetryMsg, g, [], k⟩
  | n + 1, k, g =>
    let a := attempt o k g remaining entire group_size
    match a.1.ending with
    | .retEnd grp cat => ⟨.ok (grp, cat), a.2.1, [a.1], a.2.2⟩
    | .raiseEnd m => ⟨.error m, a.2.1, [a.1], a.2.2⟩
    | .contEnd _ _ =>
      if n = 0 then ⟨.error maxRetryMsg, a.2.1, [a.1], a.2.2⟩
      else
        let r := guessLoop o remaining entire group_size n a.2.2 a.2.1
        ⟨r.result, r.guesses, a.1 :: r.trace, r.nextIdx⟩

/-- `max_retries = 15` (gvc_2.py line 87). -/
def max_retries : Nat := 15

/-- Model of `GVCSolver.guess` (gvc_2.py 66-209), from a given state of
`self.guesses` (empty after `__init__` or `reset`). -/
def GVCSolver.guess (o : Oracle) (g0 : Guesses)
    (remaining entire : List Str) (group_size : Nat) : RunOut :=
  guessLoop o remaining entire group_size max_retries 0 g0

/-!  Concrete small scenarios used to evaluate the model on closed inputs. -/

/-- A four-word board. -/
def boardABCD : List Str := [("a".chars), ("b".chars), ("c".chars), ("d".chars)]

/-- The group a well-formed reply on `boardABCD` proposes. -/
def grpABCD : List Str := [("a".chars), ("b".chars), ("c".chars), ("d".chars)]

/-- An oracle whose first attempt reaches consensus immediately. -/
def oConsensusYes : Oracle := fun k =>
  match k with
  | 0 => some ("Group: a, b, c, d\nCategory: X".chars)
  | 1 => some ("Group: a, b, c, d".chars)
  | _ => some ("Consensus reached".chars)

/-- An oracle whose replies always parse but never reach consensus. -/
def oConsensusNo : Oracle := fun k =>
  match k % 3 with
  | 0 => some ("Group: a, b, c, d\nCategory: X".chars)
  | 1 => some ("Group: a, b, c, d".chars)
  | _ => some ("Consensus not reached".chars)

/-- An oracle whose guesser reply fails to parse on the first attempt. -/
def oBadGuesser : Oracle := fun _ => some ("nonsense".chars)

/-!  `Endpoint.__post_init__` (endpoints.py lines 30-56). -/

/-- `Endpoint.DEFAULTS`: key, default base URL, API-key environment variable. -/
def Endpoint.DEFAULTS : List (Str × Str × Str) :=
  [(("oai".chars), ("https://api.openai.com/".chars), ("OPENAI_API_KEY".chars)),
   (("groq".chars), ("https://api.groq.com/openai/".chars), ("GROQ_API_KEY".chars))]

/-- Model of `Endpoint.__post_init__` (endpoints.py 47-56), over an explicit
environment `env` (`os.environ`): the resulting `(base_url, api_key)` of the
dataclass, or the raised `OSError`. -/
def Endpoint.post_init (env : Str → Option Str) (base_url : Str) (api_key : Option Str) :
    Except Str (Str × Option Str) :=
  match lookupA Endpoint.DEFAULTS base_url with
  | some info =>
    let new_base_url := info.1
    let api_key_env_var := info.2
    match env api_key_env_var with
    | none => .error ("API Key ".chars ++ api_key_env_var ++ " not found!".chars)
    | some v => .ok (new_base_url, some v)
  | none => .ok (base_url, api_key)

/-!  `Metrics` (metrics.py lines 5-29). -/

/-- The fields of the `Metrics` dataclass with their defaults
(`commit`-related machinery and float-valued properties are not modelled;
no claim touches them). -/
structure Metrics where
  total_levels : Nat := 4
  points_per_correct : Nat := 5
  penalty_per_failed_guess : Nat := 1
  solves : List Bool := [false, false, false, false]
  failed_guesses : Nat := 0
  solve_order : List Nat := []
  points : Nat := 0
  tokens_used : List (Str × Nat) := []
deriving Repr, DecidableEq

/-- Model of `Metrics.add_solve` (metrics.py 20-25); `none` is the
`IndexError` Python raises when `level` is out of range of `solves`. -/
def Metrics.add_solve (m : Metrics) (level : Nat) : Option Metrics :=
  match m.solves.get? level with
  | none => none
  | some b =>
    if !b then
      some { m with
        solves := m.solves.set level true,
        solve_order := m.solve_order ++ [level],
        points := m.points + m.points_per_correct }
    else
      some m

/-- A sequence of successful `add_solve` calls. -/
def Metrics.add_solves : Metrics → List Nat → Option Metrics
  | m, [] => some m
  | m, l :: ls =>
    match m.add_solve l with
    | none => none
    | some m2 => m2.add_solves ls

/-!  Helper notions naming the pieces an attempt is made of. -/

/-- The feedback string an attempt starting from state `g` builds. -/
def attemptFeedback (g : Guesses) (re en : List Str) : Str :=
  mkFeedback g (successfulWords re en)

/-- The guesser query of an attempt starting from state `g`. -/
def gQuery (g : Guesses) (re en : List Str) (gsz : Nat) : Query :=
  ⟨.guesser, guesserPrompt (attemptFeedback g re en) (pyJoin (", ".chars) re) gsz⟩

/-- The validator query of an attempt starting from state `g`, for the parsed category `cat`. -/
def vQuery (g : Guesses) (re en : List Str) (cat : Str) : Query :=
  ⟨.validator, validatorPrompt (attemptFeedback g re en) (pyJoin (", ".chars) re) cat⟩

/-- The consensus query for the two parsed groups. -/
def cQuery (grp vg : List Str) : Query :=
  ⟨.consensus, consensusPrompt grp vg⟩

/-- Structural facts every attempt record satisfies, relating its queries,
parses and feedback; used by several claims. -/
def attemptInv (re en : List Str) (gsz : Nat) (rec : AttemptRec) : Prop :=
  rec.feedback = attemptFeedback rec.startGuesses re en ∧
  (∀ grp cat, (rec.ending = .retEnd grp cat ∨ rec.ending = .contEnd grp cat) →
     rec.gParse = some (grp, cat) ∧
     ∃ vg, rec.vParse = some vg ∧
       rec.queries = [gQuery rec.startGuesses re en gsz,
         vQuery rec.startGuesses re en cat, cQuery grp vg]) ∧
  (∀ q ∈ rec.queries,
     (q.agent = .guesser → ∃ t, q.prompt = rec.feedback ++ ("\n".chars) ++ t) ∧
     (q.agent = .validator → ∃ t, q.prompt = rec.feedback ++ ("\n".chars) ++ t))


/-- What it means for one attempt record to have built its feedback from a
store listing the (category, group) pair, and to have prepended that
feedback to its guesser and validator prompts. -/
def attemptListsPair (re en : List Str) (cat : Str) (grp : List Str) (rec : AttemptRec) : Prop :=
  rec.feedback = mkFeedback rec.startGuesses (successfulWords re en) ∧
  (∃ gs pre post, lookupA rec.startGuesses cat = some gs ∧ grp ∈ gs ∧
    pyGroupParen grp ∈ gs.map pyGroupParen ∧
    rec.feedback = pre ++ feedbackEntry cat gs ++ post) ∧
  (∀ q ∈ rec.queries,
    (q.agent = .guesser → ∃ t, q.prompt = rec.feedback ++ ("\n".chars) ++ t) ∧
    (q.agent = .validator → ∃ t, q.prompt = rec.feedback ++ ("\n".chars) ++ t))

/-- The invariant `Metrics.add_solve` maintains: no level is recorded twice,
points track the solve count, and recorded levels are marked solved. -/
def MetricsInv (m : Metrics) : Prop :=
  m.solve_order.Nodup ∧
  m.points = m.points_per_correct * m.solve_order.length ∧
  ∀ l ∈ m.solve_order, m.solves.get? l = some true

/-- An oracle whose first attempt fails consensus and whose second reaches it. -/
def oMix : Oracle := fun k =>
  match k with
  | 0 => some ("Group: a, b, c, d\nCategory: X".chars)
  | 1 => some ("Group: a, b, c, d".chars)
  | 2 => some ("Consensus not reached".chars)
  | 3 => some ("Group: a, b, c, d\nCategory: X".chars)
  | 4 => some ("Group: a, b, c, d".chars)
  | _ => some ("Consensus reached".chars)

/-- A test environment with only `OPENAI_API_KEY` set. -/
def envTest : Str → Option Str :=
  fun s => if s = ("OPENAI_API_KEY".chars) then some ("sk-unit-test".chars) else none

/-- The `Metrics` state reached from a fresh one by `add_solve 2; add_solve 2; add_solve 0`. -/
def mval : Metrics :=
  { solves := [true, false, true, false], solve_order := [2, 0], points := 10 }

/-!  Theorems.  First a case-analysis principle for `attempt`, then the facts
about the feedback store, then the per-claim theorems. -/

/-- Case analysis on the five possible output shapes of `attempt`. -/
theorem attempt_cases (o : Oracle) (k : Nat) (g : Guesses) (re en : List Str) (gsz : Nat)
    (P : AttemptRec × Guesses × Nat → Prop)
    (hr1 : ∀ m, P (⟨g, attemptFeedback g re en, [gQuery g re en gsz],
        none, none, none, .raiseEnd m⟩, g, k + 1))
    (hr2 : ∀ grp cat m, P (⟨g, attemptFeedback g re en, [gQuery g re en gsz, vQuery g re en cat],
        some (grp, cat), none, none, .raiseEnd m⟩, g, k + 2))
    (hr3 : ∀ grp cat vg m, P (⟨g, attemptFeedback g re en,
        [gQuery g re en gsz, vQuery g re en cat, cQuery grp vg],
        some (grp, cat), some vg, none, .raiseEnd m⟩, g, k + 3))
    (hret : ∀ grp cat vg, P (⟨g, attemptFeedback g re en,
        [gQuery g re en gsz, vQuery g re en cat, cQuery grp vg],
        some (grp, cat), some vg, some true, .retEnd grp cat⟩, recordGuess g cat grp, k + 3))
    (hcont : ∀ grp cat vg, P (⟨g, attemptFeedback g re en,
        [gQuery g re en gsz, vQuery g re en cat, cQuery grp vg],
        some (grp, cat), some vg, some false, .contEnd grp cat⟩, recordGuess g cat grp, k + 3)) :
    P (attempt o k g re en gsz) := by
  unfold attempt
  cases h1 : getAgentReply (o k) ("GuesserAgent".chars) with
  | error m => exact hr1 m
  | ok greply =>
    dsimp only
    cases h2 : parse_guesser_reply greply with
    | error m => exact hr1 m
    | ok p =>
      cases p with
      | mk grp cat =>
        cases h3 : getAgentReply (o (k + 1)) ("ValidatorAgent".chars) with
        | error m => exact hr2 grp cat m
        | ok vreply =>
          dsimp only
          cases h4 : parse_validator_reply vreply with
          | error m => exact hr2 grp cat m
          | ok vg =>
            cases h5 : getAgentReply (o (k + 2)) ("ConsensusAgent".chars) with
            | error m => exact hr3 grp cat vg m
            | ok creply =>
              dsimp only
              cases h6 : parse_consensus_reply creply with
              | true => exact hret grp cat vg
              | false => exact hcont grp cat vg

/-- Looking a key up after `recordGuess`: the updated entry for the recorded
category, all other keys unchanged. -/
theorem lookupA_recordGuess (g : Guesses) (cat : Str) (grp : List Str) (c : Str) :
    lookupA (recordGuess g cat grp) c =
      if c = cat then some ((lookupA g cat).getD [] ++ [grp]) else lookupA g c := by
  induction g with
  | nil =>
    by_cases h : c = cat
    · subst h; simp [recordGuess, lookupA]
    · have h2 : ¬ cat = c := fun e => h e.symm
      simp [recordGuess, lookupA, h, h2]
  | cons p rest ih =>
    obtain ⟨k, gs⟩ := p
    by_cases hk : k = cat
    · subst hk
      by_cases hc : c = k
      · subst hc; simp [recordGuess, lookupA]
      · have hkc : ¬ k = c := fun e => hc e.symm
        simp [recordGuess, lookupA, hc, hkc]
    · by_cases hc : c = cat
      · subst hc
        simp [recordGuess, lookupA, hk, ih]
      · simp [recordGuess, lookupA, hk, hc, ih]

/-- The recorded pair is in the store afterwards. -/
theorem pairMem_recordGuess_self (g : Guesses) (cat : Str) (grp : List Str) :
    pairMem (recordGuess g cat grp) cat grp := by
  refine ⟨(lookupA g cat).getD [] ++ [grp], ?_, by simp⟩
  simp [lookupA_recordGuess]

/-- `recordGuess` never removes a pair from the store. -/
theorem pairMem_recordGuess_mono (g : Guesses) (cat : Str) (grp : List Str)
    (c : Str) (w : List Str) (h : pairMem g c w) :
    pairMem (recordGuess g cat grp) c w := by
  obtain ⟨gs, hl, hw⟩ := h
  by_cases hc : c = cat
  · subst hc
    exact ⟨(lookupA g c).getD [] ++ [grp], by simp [lookupA_recordGuess],
      by simp [hl]; exact Or.inl hw⟩
  · exact ⟨gs, by simp [lookupA_recordGuess, hc, hl], hw⟩

theorem attempt_inv (o : Oracle) (k : Nat) (g : Guesses) (re en : List Str) (gsz : Nat) :
    attemptInv re en gsz (attempt o k g re en gsz).1 := by
  refine attempt_cases o k g re en gsz (fun a => attemptInv re en gsz a.1) ?_ ?_ ?_ ?_ ?_
  · intro m
    refine ⟨rfl, ?_, ?_⟩
    · rintro grp cat (h | h) <;> simp at h
    · intro q hq
      simp only [List.mem_singleton] at hq
      subst hq
      exact ⟨fun _ => ⟨guesserPromptTail (pyJoin (", ".chars) re) gsz, rfl⟩, fun h => nomatch h⟩
  · intro grp cat m
    refine ⟨rfl, ?_, ?_⟩
    · rintro grp2 cat2 (h | h) <;> simp at h
    · intro q hq
      simp only [List.mem_cons, List.mem_singleton, List.not_mem_nil, or_false] at hq
      rcases hq with rfl | rfl
      · exact ⟨fun _ => ⟨guesserPromptTail (pyJoin (", ".chars) re) gsz, rfl⟩, fun h => nomatch h⟩
      · exact ⟨fun h => (nomatch h),
          fun _ => ⟨validatorPromptTail (pyJoin (", ".chars) re) cat, rfl⟩⟩
  · intro grp cat vg m
    refine ⟨rfl, ?_, ?_⟩
    · rintro grp2 cat2 (h | h) <;> simp at h
    · intro q hq
      simp only [List.mem_cons, List.mem_singleton, List.not_mem_nil, or_false] at hq
      rcases hq with rfl | rfl | rfl
      · exact ⟨fun _ => ⟨guesserPromptTail (pyJoin (", ".chars) re) gsz, rfl⟩, fun h => nomatch h⟩
      · exact ⟨fun h => (nomatch h),
          fun _ => ⟨validatorPromptTail (pyJoin (", ".chars) re) cat, rfl⟩⟩
      · exact ⟨fun h => (nomatch h), fun h => nomatch h⟩
  · intro grp cat vg
    refine ⟨rfl, ?_, ?_⟩
    · rintro grp2 cat2 (h | h)
      · simp only [AttemptEnd.retEnd.injEq] at h
        obtain ⟨rfl, rfl⟩ := h
        exact ⟨rfl, vg, rfl, rfl⟩
      · simp at h
    · intro q hq
      simp only [List.mem_cons, List.mem_singleton, List.not_mem_nil, or_false] at hq
      rcases hq with rfl | rfl | rfl
      · exact ⟨fun _ => ⟨guesserPromptTail (pyJoin (", ".chars) re) gsz, rfl⟩, fun h => nomatch h⟩
      · exact ⟨fun h => (nomatch h),
          fun _ => ⟨validatorPromptTail (pyJoin (", ".chars) re) cat, rfl⟩⟩
      · exact ⟨fun h => (nomatch h), fun h => nomatch h⟩
  · intro grp cat vg
    refine ⟨rfl, ?_, ?_⟩
    · rintro grp2 cat2 (h | h)
      · simp at h
      · simp only [AttemptEnd.contEnd.injEq] at h
        obtain ⟨rfl, rfl⟩ := h
        exact ⟨rfl, vg, rfl, rfl⟩
    · intro q hq
      simp only [List.mem_cons, List.mem_singleton, List.not_mem_nil, or_false] at hq
      rcases hq with rfl | rfl | rfl
      · exact ⟨fun _ => ⟨guesserPromptTail (pyJoin (", ".chars) re) gsz, rfl⟩, fun h => nomatch h⟩
      · exact ⟨fun h => (nomatch h),
          fun _ => ⟨validatorPromptTail (pyJoin (", ".chars) re) cat, rfl⟩⟩
      · exact ⟨fun h => (nomatch h), fun h => nomatch h⟩


/-- Every attempt starts from the store it was given and builds its feedback
from it. -/
theorem attempt_start (o : Oracle) (k : Nat) (g : Guesses) (re en : List Str) (gsz : Nat) :
    (attempt o k g re en gsz).1.startGuesses = g := by
  refine attempt_cases o k g re en gsz (fun a => a.1.startGuesses = g) ?_ ?_ ?_ ?_ ?_ <;>
    intros <;> rfl

/-- The consensus check parsed `True` in an attempt exactly when the attempt
returns, and `False` exactly when it falls through to the next attempt. -/
theorem attempt_consensus (o : Oracle) (k : Nat) (g : Guesses) (re en : List Str) (gsz : Nat) :
    ((attempt o k g re en gsz).1.consensus = some true ↔
      ∃ grp cat, (attempt o k g re en gsz).1.ending = .retEnd grp cat) ∧
    ((attempt o k g re en gsz).1.consensus = some false ↔
      ∃ grp cat, (attempt o k g re en gsz).1.ending = .contEnd grp cat) := by
  refine attempt_cases o k g re en gsz (fun a =>
    (a.1.consensus = some true ↔ ∃ grp cat, a.1.ending = .retEnd grp cat) ∧
    (a.1.consensus = some false ↔ ∃ grp cat, a.1.ending = .contEnd grp cat)) ?_ ?_ ?_ ?_ ?_ <;>
    intros <;> constructor <;> simp

/-- An attempt that returns or falls through appends exactly its parsed
(category, group) pair to the store. -/
theorem attempt_record (o : Oracle) (k : Nat) (g : Guesses) (re en : List Str) (gsz : Nat) :
    ∀ grp cat,
      ((attempt o k g re en gsz).1.ending = .retEnd grp cat ∨
       (attempt o k g re en gsz).1.ending = .contEnd grp cat) →
      (attempt o k g re en gsz).2.1 = recordGuess g cat grp := by
  refine attempt_cases o k g re en gsz (fun a => ∀ grp cat,
    (a.1.ending = .retEnd grp cat ∨ a.1.ending = .contEnd grp cat) →
    a.2.1 = recordGuess g cat grp) ?_ ?_ ?_ ?_ ?_
  · rintro m grp cat (h | h) <;> simp at h
  · rintro grp cat m grp2 cat2 (h | h) <;> simp at h
  · rintro grp cat vg m grp2 cat2 (h | h) <;> simp at h
  · rintro grp cat vg grp2 cat2 (h | h)
    · simp only [AttemptEnd.retEnd.injEq] at h
      obtain ⟨rfl, rfl⟩ := h
      rfl
    · simp at h
  · rintro grp cat vg grp2 cat2 (h | h)
    · simp at h
    · simp only [AttemptEnd.contEnd.injEq] at h
      obtain ⟨rfl, rfl⟩ := h
      rfl

/-- An attempt that raises leaves the store untouched, and its consensus
check never ran. -/
theorem attempt_raise (o : Oracle) (k : Nat) (g : Guesses) (re en : List Str) (gsz : Nat) :
    ∀ m, (attempt o k g re en gsz).1.ending = .raiseEnd m →
      (attempt o k g re en gsz).2.1 = g ∧ (attempt o k g re en gsz).1.consensus = none := by
  refine attempt_cases o k g re en gsz (fun a => ∀ m,
    a.1.ending = .raiseEnd m → a.2.1 = g ∧ a.1.consensus = none) ?_ ?_ ?_ ?_ ?_ <;>
    intros <;> first
      | exact ⟨rfl, rfl⟩
      | simp_all

/-- No attempt ever removes a pair from the store. -/
theorem attempt_mono (o : Oracle) (k : Nat) (g : Guesses) (re en : List Str) (gsz : Nat)
    (c : Str) (w : List Str) (h : pairMem g c w) :
    pairMem (attempt o k g re en gsz).2.1 c w := by
  refine attempt_cases o k g re en gsz (fun a => pairMem a.2.1 c w) ?_ ?_ ?_ ?_ ?_ <;>
    intros <;> first
      | exact h
      | exact pairMem_recordGuess_mono _ _ _ _ _ h

/-- Each attempt issues at most three agent queries. -/
theorem attempt_nextIdx (o : Oracle) (k : Nat) (g : Guesses) (re en : List Str) (gsz : Nat) :
    (attempt o k g re en gsz).2.2 ≤ k + 3 := by
  refine attempt_cases o k g re en gsz (fun a => a.2.2 ≤ k + 3) ?_ ?_ ?_ ?_ ?_ <;>
    intros <;> dsimp only <;> omega


/-- Case analysis on one step of the retry loop with at least one attempt
of fuel left. -/
theorem guessLoop_cases (o : Oracle) (re en : List Str) (gsz n k : Nat) (g : Guesses)
    (P : RunOut → Prop)
    (hret : ∀ grp cat, (attempt o k g re en gsz).1.ending = .retEnd grp cat →
        P ⟨.ok (grp, cat), (attempt o k g re en gsz).2.1,
           [(attempt o k g re en gsz).1], (attempt o k g re en gsz).2.2⟩)
    (hraise : ∀ m, (attempt o k g re en gsz).1.ending = .raiseEnd m →
        P ⟨.error m, (attempt o k g re en gsz).2.1,
           [(attempt o k g re en gsz).1], (attempt o k g re en gsz).2.2⟩)
    (hcont0 : ∀ grp cat, n = 0 → (attempt o k g re en gsz).1.ending = .contEnd grp cat →
        P ⟨.error maxRetryMsg, (attempt o k g re en gsz).2.1,
           [(attempt o k g re en gsz).1], (attempt o k g re en gsz).2.2⟩)
    (hcontS : ∀ grp cat, n ≠ 0 → (attempt o k g re en gsz).1.ending = .contEnd grp cat →
        P ⟨(guessLoop o re en gsz n (attempt o k g re en gsz).2.2 (attempt o k g re en gsz).2.1).result,
           (guessLoop o re en gsz n (attempt o k g re en gsz).2.2 (attempt o k g re en gsz).2.1).guesses,
           (attempt o k g re en gsz).1 ::
             (guessLoop o re en gsz n (attempt o k g re en gsz).2.2 (attempt o k g re en gsz).2.1).trace,
           (guessLoop o re en gsz n (attempt o k g re en gsz).2.2 (attempt o k g re en gsz).2.1).nextIdx⟩) :
    P (guessLoop o re en gsz (n + 1) k g) := by
  unfold guessLoop
  dsimp only
  cases hE : (attempt o k g re en gsz).1.ending with
  | retEnd grp cat => exact hret grp cat hE
  | raiseEnd m => exact hraise m hE
  | contEnd grp cat =>
    by_cases hn : n = 0
    · subst hn
      exact hcont0 grp cat rfl hE
    · rw [if_neg hn]
      exact hcontS grp cat hn hE

/-- The loop executes at most as many attempts as it has fuel. -/
theorem guessLoop_trace_len (o : Oracle) (re en : List Str) (gsz : Nat) :
    ∀ n k g, (guessLoop o re en gsz n k g).trace.length ≤ n := by
  intro n
  induction n with
  | zero => intro k g; simp [guessLoop]
  | succ n ih =>
    intro k g
    refine guessLoop_cases o re en gsz n k g
      (fun r => r.trace.length ≤ n + 1) ?_ ?_ ?_ ?_
    · intro grp cat _; dsimp only; simp
    · intro m _; dsimp only; simp
    · intro grp cat _ _; dsimp only; simp
    · intro grp cat _ _
      dsimp only
      simp only [List.length_cons]
      exact Nat.succ_le_succ (ih _ _)

/-- The loop issues at most three agent queries per unit of fuel. -/
theorem guessLoop_nextIdx (o : Oracle) (re en : List Str) (gsz : Nat) :
    ∀ n k g, (guessLoop o re en gsz n k g).nextIdx ≤ k + 3 * n := by
  intro n
  induction n with
  | zero => intro k g; simp [guessLoop]
  | succ n ih =>
    intro k g
    have ha := attempt_nextIdx o k g re en gsz
    refine guessLoop_cases o re en gsz n k g
      (fun r => r.nextIdx ≤ k + 3 * (n + 1)) ?_ ?_ ?_ ?_
    · intro grp cat _; dsimp only; omega
    · intro m _; dsimp only; omega
    · intro grp cat _ _; dsimp only; omega
    · intro grp cat _ _
      dsimp only
      have := ih (attempt o k g re en gsz).2.2 (attempt o k g re en gsz).2.1
      omega

/-- The loop yields a returned value exactly when some executed attempt's
consensus check parsed `True`. -/
theorem guessLoop_ok_iff (o : Oracle) (re en : List Str) (gsz : Nat) :
    ∀ n k g, (∃ v, (guessLoop o re en gsz n k g).result = .ok v) ↔
      ∃ rec ∈ (guessLoop o re en gsz n k g).trace, rec.consensus = some true := by
  intro n
  induction n with
  | zero =>
    intro k g
    simp [guessLoop]
  | succ n ih =>
    intro k g
    refine guessLoop_cases o re en gsz n k g
      (fun r => (∃ v, r.result = .ok v) ↔ ∃ rec ∈ r.trace, rec.consensus = some true) ?_ ?_ ?_ ?_
    · intro grp cat hE
      dsimp only
      have hc : (attempt o k g re en gsz).1.consensus = some true :=
        (attempt_consensus o k g re en gsz).1.mpr ⟨grp, cat, hE⟩
      constructor
      · intro _
        exact ⟨(attempt o k g re en gsz).1, by simp, hc⟩
      · intro _
        exact ⟨(grp, cat), rfl⟩
    · intro m hE
      dsimp only
      constructor
      · rintro ⟨v, hv⟩
        simp at hv
      · rintro ⟨r2, hrec, hc⟩
        simp only [List.mem_singleton] at hrec
        subst hrec
        obtain ⟨grp, cat, hE2⟩ := (attempt_consensus o k g re en gsz).1.mp hc
        rw [hE] at hE2
        cases hE2
    · intro grp cat hn hE
      dsimp only
      constructor
      · rintro ⟨v, hv⟩
        simp at hv
      · rintro ⟨r2, hrec, hc⟩
        simp only [List.mem_singleton] at hrec
        subst hrec
        obtain ⟨grp2, cat2, hE2⟩ := (attempt_consensus o k g re en gsz).1.mp hc
        rw [hE] at hE2
        cases hE2
    · intro grp cat hn hE
      dsimp only
      have hfalse : (attempt o k g re en gsz).1.consensus = some false :=
        (attempt_consensus o k g re en gsz).2.mpr ⟨grp, cat, hE⟩
      constructor
      · rintro ⟨v, hv⟩
        obtain ⟨r2, hrec, hc⟩ := (ih _ _).mp ⟨v, hv⟩
        exact ⟨r2, List.mem_cons_of_mem _ hrec, hc⟩
      · rintro ⟨r2, hrec, hc⟩
        rcases List.mem_cons.mp hrec with rfl | hrec2
        · rw [hfalse] at hc
          cases hc
        · exact (ih _ _).mpr ⟨r2, hrec2, hc⟩

/-- If every executed attempt's consensus check parsed `False`, the loop
burns all its fuel and raises the max-retries `ValueError`. -/
theorem guessLoop_allcont (o : Oracle) (re en : List Str) (gsz : Nat) :
    ∀ n k g, 1 ≤ n →
      (∀ rec ∈ (guessLoop o re en gsz n k g).trace, rec.consensus = some false) →
      (guessLoop o re en gsz n k g).result = .error maxRetryMsg ∧
      (guessLoop o re en gsz n k g).trace.length = n := by
  intro n
  induction n with
  | zero => intro k g h; omega
  | succ n ih =>
    intro k g _
    refine guessLoop_cases o re en gsz n k g
      (fun r => (∀ rec ∈ r.trace, rec.consensus = some false) →
        r.result = .error maxRetryMsg ∧ r.trace.length = n + 1) ?_ ?_ ?_ ?_
    · intro grp cat hE hall
      have hc : (attempt o k g re en gsz).1.consensus = some true :=
        (attempt_consensus o k g re en gsz).1.mpr ⟨grp, cat, hE⟩
      have hf := hall (attempt o k g re en gsz).1 (by simp)
      rw [hc] at hf
      cases hf
    · intro m hE hall
      have hn := ((attempt_raise o k g re en gsz) m hE).2
      have hf := hall (attempt o k g re en gsz).1 (by simp)
      rw [hn] at hf
      cases hf
    · intro grp cat hn hE hall
      subst hn
      exact ⟨rfl, rfl⟩
    · intro grp cat hn hE hall
      dsimp only at hall ⊢
      have htail : ∀ rec ∈ (guessLoop o re en gsz n (attempt o k g re en gsz).2.2
          (attempt o k g re en gsz).2.1).trace, rec.consensus = some false :=
        fun rec hrec => hall rec (List.mem_cons_of_mem _ hrec)
      obtain ⟨h1, h2⟩ := ih (attempt o k g re en gsz).2.2 (attempt o k g re en gsz).2.1
        (Nat.one_le_iff_ne_zero.mpr hn) htail
      exact ⟨h1, by simp [h2]⟩

/-- A returned value comes from the final executed attempt: its guesser
parse is exactly the returned pair and its consensus check parsed `True`. -/
theorem guessLoop_ok_spec (o : Oracle) (re en : List Str) (gsz : Nat) :
    ∀ n k g grp cat, (guessLoop o re en gsz n k g).result = .ok (grp, cat) →
      ∃ rec ∈ (guessLoop o re en gsz n k g).trace,
        rec.ending = .retEnd grp cat ∧ rec.gParse = some (grp, cat) ∧
        rec.consensus = some true ∧ ∃ vg, rec.vParse = some vg := by
  intro n
  induction n with
  | zero =>
    intro k g grp cat hv
    simp [guessLoop] at hv
  | succ n ih =>
    intro k g grp cat
    refine guessLoop_cases o re en gsz n k g
      (fun r => r.result = .ok (grp, cat) →
        ∃ rec ∈ r.trace, rec.ending = .retEnd grp cat ∧ rec.gParse = some (grp, cat) ∧
          rec.consensus = some true ∧ ∃ vg, rec.vParse = some vg) ?_ ?_ ?_ ?_
    · intro grp2 cat2 hE hv
      dsimp only at hv
      simp only [Except.ok.injEq, Prod.mk.injEq] at hv
      obtain ⟨rfl, rfl⟩ := hv
      have hc : (attempt o k g re en gsz).1.consensus = some true :=
        (attempt_consensus o k g re en gsz).1.mpr ⟨grp2, cat2, hE⟩
      obtain ⟨hg, vg, hvp, _⟩ := (attempt_inv o k g re en gsz).2.1 grp2 cat2 (Or.inl hE)
      exact ⟨(attempt o k g re en gsz).1, by simp, hE, hg, hc, vg, hvp⟩
    · intro m hE hv
      simp at hv
    · intro grp2 cat2 hn hE hv
      simp at hv
    · intro grp2 cat2 hn hE hv
      dsimp only at hv ⊢
      obtain ⟨rec, hrec, hprops⟩ := ih _ _ grp cat hv
      exact ⟨rec, List.mem_cons_of_mem _ hrec, hprops⟩

/-- Every executed attempt satisfies the structural attempt invariant. -/
theorem guessLoop_inv (o : Oracle) (re en : List Str) (gsz : Nat) :
    ∀ n k g, ∀ rec ∈ (guessLoop o re en gsz n k g).trace, attemptInv re en gsz rec := by
  intro n
  induction n with
  | zero =>
    intro k g rec hrec
    simp [guessLoop] at hrec
  | succ n ih =>
    intro k g
    refine guessLoop_cases o re en gsz n k g
      (fun r => ∀ rec ∈ r.trace, attemptInv re en gsz rec) ?_ ?_ ?_ ?_
    · intro grp cat _ rec hrec
      simp only [List.mem_singleton] at hrec
      subst hrec
      exact attempt_inv o k g re en gsz
    · intro m _ rec hrec
      simp only [List.mem_singleton] at hrec
      subst hrec
      exact attempt_inv o k g re en gsz
    · intro grp cat _ _ rec hrec
      simp only [List.mem_singleton] at hrec
      subst hrec
      exact attempt_inv o k g re en gsz
    · intro grp cat _ _ rec hrec
      dsimp only at hrec
      rcases List.mem_cons.mp hrec with rfl | hrec2
      · exact attempt_inv o k g re en gsz
      · exact ih _ _ rec hrec2

/-- A pair present in the store stays present: in the start state of every
executed attempt and in the final state of the loop. -/
theorem guessLoop_pairMem (o : Oracle) (re en : List Str) (gsz : Nat) :
    ∀ n k g c w, pairMem g c w →
      (∀ rec ∈ (guessLoop o re en gsz n k g).trace, pairMem rec.startGuesses c w) ∧
      pairMem (guessLoop o re en gsz n k g).guesses c w := by
  intro n
  induction n with
  | zero =>
    intro k g c w h
    constructor
    · intro rec hrec
      simp [guessLoop] at hrec
    · exact h
  | succ n ih =>
    intro k g c w h
    have hstart := attempt_start o k g re en gsz
    have hmono := attempt_mono o k g re en gsz c w h
    refine guessLoop_cases o re en gsz n k g
      (fun r => (∀ rec ∈ r.trace, pairMem rec.startGuesses c w) ∧ pairMem r.guesses c w)
      ?_ ?_ ?_ ?_
    · intro grp cat _
      refine ⟨?_, hmono⟩
      intro rec hrec
      simp only [List.mem_singleton] at hrec
      subst hrec
      rw [hstart]
      exact h
    · intro m _
      refine ⟨?_, hmono⟩
      intro rec hrec
      simp only [List.mem_singleton] at hrec
      subst hrec
      rw [hstart]
      exact h
    · intro grp cat _ _
      refine ⟨?_, hmono⟩
      intro rec hrec
      simp only [List.mem_singleton] at hrec
      subst hrec
      rw [hstart]
      exact h
    · intro grp cat _ _
      obtain ⟨ht, hg⟩ := ih (attempt o k g re en gsz).2.2 (attempt o k g re en gsz).2.1 c w hmono
      refine ⟨?_, hg⟩
      intro rec hrec
      dsimp only at hrec
      rcases List.mem_cons.mp hrec with rfl | hrec2
      · rw [hstart]
        exact h
      · exact ht rec hrec2

/-- After an attempt ends without consensus on a pair, every later executed
attempt of the same loop starts from a store containing that pair. -/
theorem guessLoop_cont_later (o : Oracle) (re en : List Str) (gsz : Nat) :
    ∀ n k g grp cat i j (hi : i < (guessLoop o re en gsz n k g).trace.length)
      (hj : j < (guessLoop o re en gsz n k g).trace.length), i < j →
      (((guessLoop o re en gsz n k g).trace.get ⟨i, hi⟩)).ending = .contEnd grp cat →
      pairMem (((guessLoop o re en gsz n k g).trace.get ⟨j, hj⟩)).startGuesses cat grp := by
  intro n
  induction n with
  | zero =>
    intro k g grp cat i j hi hj hij hE
    simp [guessLoop] at hi
  | succ n ih =>
    intro k g grp cat
    refine guessLoop_cases o re en gsz n k g
      (fun r => ∀ i j (hi : i < r.trace.length) (hj : j < r.trace.length), i < j →
        ((r.trace.get ⟨i, hi⟩)).ending = .contEnd grp cat →
        pairMem ((r.trace.get ⟨j, hj⟩)).startGuesses cat grp) ?_ ?_ ?_ ?_
    · intro grp2 cat2 _ i j hi hj hij hEi
      simp only [List.length_singleton] at hj
      omega
    · intro m _ i j hi hj hij hEi
      simp only [List.length_singleton] at hj
      omega
    · intro grp2 cat2 _ _ i j hi hj hij hEi
      simp only [List.length_singleton] at hj
      omega
    · intro grp2 cat2 hn hE i j hi hj hij hEi
      dsimp only at hi hj hEi ⊢
      cases j with
      | zero => omega
      | succ j2 =>
        have hj2 : j2 < (guessLoop o re en gsz n (attempt o k g re en gsz).2.2
            (attempt o k g re en gsz).2.1).trace.length := by
          simp only [List.length_cons] at hj
          omega
        cases i with
        | zero =>
          have hrec : (attempt o k g re en gsz).2.1 = recordGuess g cat grp :=
            attempt_record o k g re en gsz grp cat (Or.inr hEi)
          have hpm : pairMem (attempt o k g re en gsz).2.1 cat grp := by
            rw [hrec]
            exact pairMem_recordGuess_self g cat grp
          have hall := (guessLoop_pairMem o re en gsz n (attempt o k g re en gsz).2.2
            (attempt o k g re en gsz).2.1 cat grp hpm).1
          exact hall _ (List.get_mem _ _ _)
        | succ i2 =>
          have hi2 : i2 < (guessLoop o re en gsz n (attempt o k g re en gsz).2.2
              (attempt o k g re en gsz).2.1).trace.length := by
            simp only [List.length_cons] at hi
            omega
          exact ih _ _ grp cat i2 j2 hi2 hj2 (by omega) hEi

/-- After an attempt ends without consensus on a pair, the loop's final
store contains that pair. -/
theorem guessLoop_cont_final (o : Oracle) (re en : List Str) (gsz : Nat) :
    ∀ n k g grp cat i (hi : i < (guessLoop o re en gsz n k g).trace.length),
      (((guessLoop o re en gsz n k g).trace.get ⟨i, hi⟩)).ending = .contEnd grp cat →
      pairMem (guessLoop o re en gsz n k g).guesses cat grp := by
  intro n
  induction n with
  | zero =>
    intro k g grp cat i hi hE
    simp [guessLoop] at hi
  | succ n ih =>
    intro k g grp cat
    refine guessLoop_cases o re en gsz n k g
      (fun r => ∀ i (hi : i < r.trace.length),
        ((r.trace.get ⟨i, hi⟩)).ending = .contEnd grp cat →
        pairMem r.guesses cat grp) ?_ ?_ ?_ ?_
    · intro grp2 cat2 hE i hi hEi
      simp only [List.length_singleton] at hi
      interval_cases i
      rw [show ([(attempt o k g re en gsz).1].get ⟨0, by simp⟩) =
        (attempt o k g re en gsz).1 from rfl, hE] at hEi
      cases hEi
    · intro m hE i hi hEi
      simp only [List.length_singleton] at hi
      interval_cases i
      rw [show ([(attempt o k g re en gsz).1].get ⟨0, by simp⟩) =
        (attempt o k g re en gsz).1 from rfl, hE] at hEi
      cases hEi
    · intro grp2 cat2 hn hE i hi hEi
      simp only [List.length_singleton] at hi
      interval_cases i
      have hrec : (attempt o k g re en gsz).2.1 = recordGuess g cat grp :=
        attempt_record o k g re en gsz grp cat (Or.inr hEi)
      dsimp only
      rw [hrec]
      exact pairMem_recordGuess_self g cat grp
    · intro grp2 cat2 hn hE i hi hEi
      dsimp only at hi hEi ⊢
      cases i with
      | zero =>
        have hrec : (attempt o k g re en gsz).2.1 = recordGuess g cat grp :=
          attempt_record o k g re en gsz grp cat (Or.inr hEi)
        have hpm : pairMem (attempt o k g re en gsz).2.1 cat grp := by
          rw [hrec]
          exact pairMem_recordGuess_self g cat grp
        exact (guessLoop_pairMem o re en gsz n (attempt o k g re en gsz).2.2
          (attempt o k g re en gsz).2.1 cat grp hpm).2
      | succ i2 =>
        have hi2 : i2 < (guessLoop o re en gsz n (attempt o k g re en gsz).2.2
            (attempt o k g re en gsz).2.1).trace.length := by
          simp only [List.length_cons] at hi
          omega
        exact ih _ _ grp cat i2 hi2 hEi

/-- A parse failure aborts the loop at once: the raising attempt is the last
one executed, its message is the raised error, and the store is exactly what
it was when that attempt started. -/
theorem guessLoop_raise (o : Oracle) (re en : List Str) (gsz : Nat) :
    ∀ n k g m i (hi : i < (guessLoop o re en gsz n k g).trace.length),
      (((guessLoop o re en gsz n k g).trace.get ⟨i, hi⟩)).ending = .raiseEnd m →
      i + 1 = (guessLoop o re en gsz n k g).trace.length ∧
      (guessLoop o re en gsz n k g).result = .error m ∧
      (guessLoop o re en gsz n k g).guesses =
        (((guessLoop o re en gsz n k g).trace.get ⟨i, hi⟩)).startGuesses := by
  intro n
  induction n with
  | zero =>
    intro k g m i hi hE
    simp [guessLoop] at hi
  | succ n ih =>
    intro k g m
    refine guessLoop_cases o re en gsz n k g
      (fun r => ∀ i (hi : i < r.trace.length),
        ((r.trace.get ⟨i, hi⟩)).ending = .raiseEnd m →
        i + 1 = r.trace.length ∧ r.result = .error m ∧
        r.guesses = ((r.trace.get ⟨i, hi⟩)).startGuesses) ?_ ?_ ?_ ?_
    · intro grp cat hE i hi hEi
      simp only [List.length_singleton] at hi
      interval_cases i
      rw [show ([(attempt o k g re en gsz).1].get ⟨0, by simp⟩) =
        (attempt o k g re en gsz).1 from rfl, hE] at hEi
      cases hEi
    · intro m2 hE i hi hEi
      simp only [List.length_singleton] at hi
      interval_cases i
      have hEi2 : (attempt o k g re en gsz).1.ending = .raiseEnd m := hEi
      rw [hE] at hEi2
      simp only [AttemptEnd.raiseEnd.injEq] at hEi2
      subst hEi2
      refine ⟨rfl, rfl, ?_⟩
      show (attempt o k g re en gsz).2.1 = (attempt o k g re en gsz).1.startGuesses
      rw [(attempt_raise o k g re en gsz m2 hE).1, attempt_start o k g re en gsz]
    · intro grp cat hn hE i hi hEi
      simp only [List.length_singleton] at hi
      interval_cases i
      rw [show ([(attempt o k g re en gsz).1].get ⟨0, by simp⟩) =
        (attempt o k g re en gsz).1 from rfl, hE] at hEi
      cases hEi
    · intro grp cat hn hE i hi hEi
      dsimp only at hi hEi ⊢
      cases i with
      | zero =>
        have hEi2 : (attempt o k g re en gsz).1.ending = .raiseEnd m := hEi
        rw [hE] at hEi2
        cases hEi2
      | succ i2 =>
        have hi2 : i2 < (guessLoop o re en gsz n (attempt o k g re en gsz).2.2
            (attempt o k g re en gsz).2.1).trace.length := by
          simp only [List.length_cons] at hi
          omega
        obtain ⟨h1, h2, h3⟩ := ih _ _ m i2 hi2 hEi
        refine ⟨?_, h2, h3⟩
        simp only [List.length_cons]
        omega

/-- A line found by `findMarkedLine` carries its marker, hence is nonempty. -/
theorem findMarkedLine_ne_nil (marker reply l : Str) (hm : marker ≠ [])
    (h : findMarkedLine marker reply = some l) : l ≠ [] := by
  have hp := List.find?_some h
  intro hl
  subst hl
  cases marker with
  | nil => exact hm rfl
  | cons c cs => simp [List.isPrefixOf] at hp

/-- A successful lookup names an entry of the association list. -/
theorem lookupA_mem {α : Type} (g : List (Str × α)) (c : Str) (v : α)
    (h : lookupA g c = some v) : (c, v) ∈ g := by
  induction g with
  | nil => simp [lookupA] at h
  | cons p rest ih =>
    obtain ⟨k, w⟩ := p
    by_cases hk : k = c
    · subst hk
      simp only [lookupA, eq_self_iff_true, if_true, Option.some.injEq] at h
      subst h
      exact List.mem_cons_self _ _
    · simp only [lookupA, if_neg hk] at h
      exact List.mem_cons_of_mem _ (ih h)

/-- A pair present in the store is listed by the feedback block built from
it: the store's entry line for the category occurs inside the feedback
string, and the rendered group occurs among that line's rendered groups. -/
theorem mkFeedback_lists_pair (g : Guesses) (s : List Str) (cat : Str) (grp : List Str)
    (h : pairMem g cat grp) :
    ∃ gs pre post, lookupA g cat = some gs ∧ grp ∈ gs ∧
      pyGroupParen grp ∈ gs.map pyGroupParen ∧
      mkFeedback g s = pre ++ feedbackEntry cat gs ++ post := by
  obtain ⟨gs, hl, hw⟩ := h
  have hgne : g ≠ [] := by
    intro hg
    subst hg
    simp [lookupA] at hl
  obtain ⟨l1, l2, hg⟩ := List.append_of_mem (lookupA_mem g cat gs hl)
  refine ⟨gs, ?_, ?_, hl, hw, List.mem_map_of_mem _ hw, ?_⟩
  · exact "Note:\n".chars
      ++ ("- Be aware that the following category and word group pairs either do not match or the category isn\x27t specific enough. Do not repeat them!:\n".chars
      ++ (l1.map (fun p => feedbackEntry p.1 p.2)).flatten)
  · exact ((l2.map (fun p => feedbackEntry p.1 p.2)).flatten)
      ++ (if s = [] then []
          else "- Ensure that your guessed category does not encompass any of these words: ".chars
            ++ pyStrListRepr s ++ "\n".chars)
  · rw [mkFeedback, if_neg hgne, if_neg hgne, hg]
    simp only [List.map_append, List.map_cons, List.flatten_append, List.flatten_cons]
    simp [List.append_assoc]

/-- An attempt whose starting store holds a pair lists that pair in its
feedback and prepends the feedback to its guesser and validator prompts. -/
theorem attemptInv_listsPair (re en : List Str) (gsz : Nat) (cat : Str) (grp : List Str)
    (rec : AttemptRec) (hinv : attemptInv re en gsz rec)
    (hmem : pairMem rec.startGuesses cat grp) :
    attemptListsPair re en cat grp rec := by
  obtain ⟨hfb, _, hq⟩ := hinv
  refine ⟨hfb, ?_, hq⟩
  obtain ⟨gs, pre, post, h1, h2, h3, h4⟩ :=
    mkFeedback_lists_pair rec.startGuesses (successfulWords re en) cat grp hmem
  exact ⟨gs, pre, post, h1, h2, h3, by rw [hfb]; exact h4⟩

/-- A fresh `Metrics` satisfies the solve invariant. -/
theorem metricsInv_init : MetricsInv {} := by
  refine ⟨List.nodup_nil, rfl, ?_⟩
  intro l hl
  simp at hl

/-- `add_solve` preserves the solve invariant. -/
theorem metricsInv_add_solve (m m2 : Metrics) (level : Nat)
    (hinv : MetricsInv m) (h : m.add_solve level = some m2) : MetricsInv m2 := by
  obtain ⟨hnd, hpts, hall⟩ := hinv
  unfold Metrics.add_solve at h
  cases hget : m.solves.get? level with
  | none => rw [hget] at h; cases h
  | some b =>
    rw [hget] at h
    cases b with
    | true =>
      simp only [Bool.not_true, Bool.false_eq_true, if_false, Option.some.injEq] at h
      subst h
      exact ⟨hnd, hpts, hall⟩
    | false =>
      simp only [Bool.not_false, if_true, Option.some.injEq] at h
      subst h
      have hlt : level < m.solves.length := by
        rcases List.get?_eq_some.mp hget with ⟨hl, _⟩
        exact hl
      have hnotmem : level ∉ m.solve_order := by
        intro hmem
        have hx := hall level hmem
        rw [hget] at hx
        cases hx
      refine ⟨?_, ?_, ?_⟩
      · exact List.nodup_append.mpr
          ⟨hnd, List.nodup_singleton _, List.disjoint_singleton.mpr hnotmem⟩
      · simp only [List.length_append, List.length_singleton, Nat.mul_succ]
        omega
      · intro l hl
        rcases List.mem_append.mp hl with hl2 | hl2
        · have hx := hall l hl2
          by_cases hle : level = l
          · subst hle
            exact List.get?_set_eq_of_lt _ hlt
          · rw [List.get?_set_ne _ _ hle]
            exact hx
        · simp only [List.mem_singleton] at hl2
          subst hl2
          exact List.get?_set_eq_of_lt _ hlt

/-- Chains of successful `add_solve` calls preserve the solve invariant. -/
theorem metricsInv_add_solves (ls : List Nat) : ∀ m m2 : Metrics,
    MetricsInv m → Metrics.add_solves m ls = some m2 → MetricsInv m2 := by
  induction ls with
  | nil =>
    intro m m2 hinv h
    simp only [Metrics.add_solves, Option.some.injEq] at h
    subst h
    exact hinv
  | cons l ls ih =>
    intro m m2 hinv h
    unfold Metrics.add_solves at h
    cases hstep : m.add_solve l with
    | none => rw [hstep] at h; cases h
    | some m3 =>
      rw [hstep] at h
      exact ih m3 m2 (metricsInv_add_solve m m3 l hinv hstep) h

/-- C10: `Metrics.add_solve` is idempotent on an already-solved level (the
call returns the state unchanged), and every state reachable from a fresh
`Metrics` by `add_solve` calls has no duplicate level in `solve_order` and
has `points = points_per_correct * solve_order.length`. -/
theorem metrics_c10_add_solve (m m2 : Metrics) (level : Nat) (ls : List Nat) :
    (m.solves.get? level = some true → m.add_solve level = some m) ∧
    (Metrics.add_solves {} ls = some m2 →
      m2.solve_order.Nodup ∧ m2.points = m2.points_per_correct * m2.solve_order.length) := by
  constructor
  · intro h
    unfold Metrics.add_solve
    rw [h]
    simp
  · intro h
    obtain ⟨h1, h2, _⟩ := metricsInv_add_solves ls {} m2 metricsInv_init h
    exact ⟨h1, h2⟩

/-- C10 witness: on the concrete state reached by `add_solve 2; add_solve 2;
add_solve 0` from a fresh `Metrics`, a further `add_solve 2` is the identity,
`solve_order` is duplicate-free and the points relation holds. -/
theorem metrics_c10_witness :
    mval.add_solve 2 = some mval ∧
    mval.solve_order.Nodup ∧ mval.points = mval.points_per_correct * mval.solve_order.length := by
  have h := metrics_c10_add_solve mval mval 2 [2, 2, 0]
  exact ⟨h.1 (by rfl), h.2 (by rfl)⟩

/-- C8: constructing an `Endpoint` with `base_url` `"oai"` or `"groq"`
replaces the URL with the default and takes the API key from the matching
environment variable, raising `OSError` when that variable is unset; any
other `base_url` leaves both fields unchanged. -/
theorem endpoint_c8_post_init (env : Str → Option Str) (base_url : Str) (api_key : Option Str) :
    (base_url = ("oai".chars) →
      (env ("OPENAI_API_KEY".chars) = none →
        Endpoint.post_init env base_url api_key
          = .error ("API Key OPENAI_API_KEY not found!".chars)) ∧
      (∀ v, env ("OPENAI_API_KEY".chars) = some v →
        Endpoint.post_init env base_url api_key
          = .ok (("https://api.openai.com/".chars), some v))) ∧
    (base_url = ("groq".chars) →
      (env ("GROQ_API_KEY".chars) = none →
        Endpoint.post_init env base_url api_key
          = .error ("API Key GROQ_API_KEY not found!".chars)) ∧
      (∀ v, env ("GROQ_API_KEY".chars) = some v →
        Endpoint.post_init env base_url api_key
          = .ok (("https://api.groq.com/openai/".chars), some v))) ∧
    (base_url ≠ ("oai".chars) → base_url ≠ ("groq".chars) →
      Endpoint.post_init env base_url api_key = .ok (base_url, api_key)) := by
  refine ⟨?_, ?_, ?_⟩
  · rintro rfl
    have hl : lookupA Endpoint.DEFAULTS ("oai".chars)
        = some (("https://api.openai.com/".chars), ("OPENAI_API_KEY".chars)) := by rfl
    constructor
    · intro he
      simp only [Endpoint.post_init, hl, he]
      rfl
    · intro v hv
      simp only [Endpoint.post_init, hl, hv]
  · rintro rfl
    have hl : lookupA Endpoint.DEFAULTS ("groq".chars)
        = some (("https://api.groq.com/openai/".chars), ("GROQ_API_KEY".chars)) := by rfl
    constructor
    · intro he
      simp only [Endpoint.post_init, hl, he]
      rfl
    · intro v hv
      simp only [Endpoint.post_init, hl, hv]
  · intro h1 h2
    have hl : lookupA Endpoint.DEFAULTS base_url = none := by
      have h1x : ¬ ("oai".chars) = base_url := fun e => h1 e.symm
      have h2x : ¬ ("groq".chars) = base_url := fun e => h2 e.symm
      simp [Endpoint.DEFAULTS, lookupA, h1x, h2x]
    simp only [Endpoint.post_init, hl]

/-- C8 witness: with only `OPENAI_API_KEY` set, `"oai"` resolves to the
OpenAI URL and key, `"groq"` raises, and an unknown URL passes through. -/
theorem endpoint_c8_witness :
    Endpoint.post_init envTest ("oai".chars) none
      = .ok (("https://api.openai.com/".chars), some ("sk-unit-test".chars)) ∧
    Endpoint.post_init envTest ("groq".chars) none
      = .error ("API Key GROQ_API_KEY not found!".chars) ∧
    Endpoint.post_init envTest ("ollama".chars) (some ("tok".chars))
      = .ok (("ollama".chars), some ("tok".chars)) := by
  refine ⟨?_, ?_, ?_⟩
  · exact ((endpoint_c8_post_init envTest ("oai".chars) none).1 rfl).2 _ (by rfl)
  · exact ((endpoint_c8_post_init envTest ("groq".chars) none).2.1 rfl).1 (by rfl)
  · exact (endpoint_c8_post_init envTest ("ollama".chars)
      (some ("tok".chars))).2.2 (by decide) (by decide)

/-- C7: `parse_guesser_reply` raises `ValueError` exactly when the reply has
no line starting with `Group:`, or none starting with `Category:`, or the
comma-split of the group line does not yield exactly 4 words, and otherwise
returns the 4 stripped words and the stripped category; `parse_validator_reply`
raises exactly when there is no `Group:` line or the split does not yield
exactly 4 words, and otherwise returns the 4 stripped words. -/
theorem gvc_parsers_c7 (gr vr : Str) :
    ((∃ m, parse_guesser_reply gr = .error m) ↔
      (findMarkedLine ("Group:".chars) gr = none ∨
       findMarkedLine ("Category:".chars) gr = none ∨
       (groupWordsOf ((findMarkedLine ("Group:".chars) gr).getD [])).length ≠ 4)) ∧
    (∀ gl cl, findMarkedLine ("Group:".chars) gr = some gl →
       findMarkedLine ("Category:".chars) gr = some cl →
       (groupWordsOf gl).length = 4 →
       parse_guesser_reply gr = .ok (groupWordsOf gl, categoryOf cl)) ∧
    ((∃ m, parse_validator_reply vr = .error m) ↔
      (findMarkedLine ("Group:".chars) vr = none ∨
       (groupWordsOf ((findMarkedLine ("Group:".chars) vr).getD [])).length ≠ 4)) ∧
    (∀ gl, findMarkedLine ("Group:".chars) vr = some gl →
       (groupWordsOf gl).length = 4 →
       parse_validator_reply vr = .ok (groupWordsOf gl)) := by
  have hGne : ∀ r l, findMarkedLine ("Group:".chars) r = some l → l ≠ [] :=
    fun r l h => findMarkedLine_ne_nil _ _ _ (by decide) h
  have hCne : ∀ r l, findMarkedLine ("Category:".chars) r = some l → l ≠ [] :=
    fun r l h => findMarkedLine_ne_nil _ _ _ (by decide) h
  refine ⟨?_, ?_, ?_, ?_⟩
  · cases hG : findMarkedLine ("Group:".chars) gr with
    | none =>
      cases hC : findMarkedLine ("Category:".chars) gr with
      | none => simp [parse_guesser_reply, hG, hC]
      | some cl => simp [parse_guesser_reply, hG, hC, hCne gr cl hC]
    | some gl =>
      cases hC : findMarkedLine ("Category:".chars) gr with
      | none => simp [parse_guesser_reply, hG, hC, hGne gr gl hG]
      | some cl =>
        by_cases hL : (groupWordsOf gl).length = 4 <;>
          simp [parse_guesser_reply, hG, hC, hGne gr gl hG, hCne gr cl hC, hL]
  · intro gl cl hG hC hL
    simp [parse_guesser_reply, hG, hC, hGne gr gl hG, hCne gr cl hC, hL]
  · cases hG : findMarkedLine ("Group:".chars) vr with
    | none => simp [parse_validator_reply, hG]
    | some gl =>
      by_cases hL : (groupWordsOf gl).length = 4 <;>
        simp [parse_validator_reply, hG, hGne vr gl hG, hL]
  · intro gl hG hL
    simp [parse_validator_reply, hG, hGne vr gl hG, hL]

/-- C7 witness: a well-formed guesser reply and validator reply parse to the
stripped words and category, and a reply missing its `Group:` line errors. -/
theorem gvc_parsers_c7_witness :
    parse_guesser_reply ("Group: a , b, c, d\nCategory:  X ".chars)
      = .ok ([("a".chars), ("b".chars), ("c".chars), ("d".chars)], "X".chars) ∧
    parse_validator_reply ("Group: a, b, c, d".chars)
      = .ok [("a".chars), ("b".chars), ("c".chars), ("d".chars)] ∧
    (∃ m, parse_guesser_reply ("Category: X".chars) = .error m) := by
  have h1 := gvc_parsers_c7 ("Group: a , b, c, d\nCategory:  X ".chars) ("Group: a, b, c, d".chars)
  have h2 := gvc_parsers_c7 ("Category: X".chars) ("Group: a, b, c, d".chars)
  refine ⟨?_, ?_, ?_⟩
  · exact h1.2.1 (("Group: a , b, c, d").chars) (("Category:  X").chars)
      (by rfl) (by rfl) (by rfl)
  · exact h1.2.2.2 (("Group: a, b, c, d").chars) (by rfl) (by rfl)
  · exact h2.1.mpr (Or.inl (by rfl))

/-- C1: a call of `GVCSolver.guess` executes at most 15 attempts; it returns
normally exactly when some executed attempt's consensus reply parses as
consensus-reached; and when every one of the executed attempts runs its
consensus check and it parses as not reached, all 15 attempts are used and
the call raises the max-retries `ValueError`. -/
theorem gvc_guess_c1_retry_semantics (o : Oracle) (g0 : Guesses)
    (remaining entire : List Str) (gsz : Nat) :
    (GVCSolver.guess o g0 remaining entire gsz).trace.length ≤ 15 ∧
    ((∃ v, (GVCSolver.guess o g0 remaining entire gsz).result = .ok v) ↔
      ∃ rec ∈ (GVCSolver.guess o g0 remaining entire gsz).trace,
        rec.consensus = some true) ∧
    ((∀ rec ∈ (GVCSolver.guess o g0 remaining entire gsz).trace,
        rec.consensus = some false) →
      (GVCSolver.guess o g0 remaining entire gsz).result = .error maxRetryMsg ∧
      (GVCSolver.guess o g0 remaining entire gsz).trace.length = 15) :=
  ⟨guessLoop_trace_len o remaining entire gsz 15 0 g0,
   guessLoop_ok_iff o remaining entire gsz 15 0 g0,
   fun h => guessLoop_allcont o remaining entire gsz 15 0 g0 (by omega) h⟩

/-- C1 witness: on an oracle that always parses but never reaches consensus,
the call runs exactly 15 attempts and raises the max-retries `ValueError`. -/
theorem gvc_guess_c1_witness :
    (GVCSolver.guess oConsensusNo [] boardABCD boardABCD 4).result = .error maxRetryMsg ∧
    (GVCSolver.guess oConsensusNo [] boardABCD boardABCD 4).trace.length = 15 := by
  have hmap : (GVCSolver.guess oConsensusNo [] boardABCD boardABCD 4).trace.map
      AttemptRec.consensus = List.replicate 15 (some false) := by rfl
  refine (gvc_guess_c1_retry_semantics oConsensusNo [] boardABCD boardABCD 4).2.2 ?_
  intro rec hrec
  have hmem : rec.consensus ∈ List.replicate 15 (some false) :=
    hmap ▸ List.mem_map_of_mem _ hrec
  exact List.eq_of_mem_replicate hmem

/-- C4: `GVCSolver.guess` always terminates in the model: the loop executes
at most 15 attempts, issues at most 45 agent queries, every executed attempt
either returns, proceeds to the next attempt, or raises, and the call as a
whole either returns a value or raises a `ValueError`. -/
theorem gvc_guess_c4_termination (o : Oracle) (g0 : Guesses)
    (remaining entire : List Str) (gsz : Nat) :
    (GVCSolver.guess o g0 remaining entire gsz).trace.length ≤ 15 ∧
    (GVCSolver.guess o g0 remaining entire gsz).nextIdx ≤ 45 ∧
    (∀ rec ∈ (GVCSolver.guess o g0 remaining entire gsz).trace,
      (∃ grp cat, rec.ending = .retEnd grp cat) ∨
      (∃ grp cat, rec.ending = .contEnd grp cat) ∨
      (∃ m, rec.ending = .raiseEnd m)) ∧
    ((∃ v, (GVCSolver.guess o g0 remaining entire gsz).result = .ok v) ∨
     (∃ m, (GVCSolver.guess o g0 remaining entire gsz).result = .error m)) := by
  refine ⟨guessLoop_trace_len o remaining entire gsz 15 0 g0, ?_, ?_, ?_⟩
  · have h : (GVCSolver.guess o g0 remaining entire gsz).nextIdx ≤ 0 + 3 * 15 :=
      guessLoop_nextIdx o remaining entire gsz 15 0 g0
    omega
  · intro rec hrec
    cases hE : rec.ending with
    | retEnd grp cat => exact Or.inl ⟨grp, cat, rfl⟩
    | contEnd grp cat => exact Or.inr (Or.inl ⟨grp, cat, rfl⟩)
    | raiseEnd m => exact Or.inr (Or.inr ⟨m, rfl⟩)
  · cases hv : (GVCSolver.guess o g0 remaining entire gsz).result with
    | ok v => exact Or.inl ⟨v, rfl⟩
    | error m => exact Or.inr ⟨m, rfl⟩

/-- C5: a normal return of `GVCSolver.guess` is the guesser agent's parsed
pair from an attempt whose consensus check parsed as reached against the
validator's parsed group; the validator group itself is not what is
returned. -/
theorem gvc_guess_c5_returned_pair (o : Oracle) (g0 : Guesses)
    (remaining entire : List Str) (gsz : Nat) (grp : List Str) (cat : Str)
    (h : (GVCSolver.guess o g0 remaining entire gsz).result = .ok (grp, cat)) :
    ∃ rec ∈ (GVCSolver.guess o g0 remaining entire gsz).trace,
      rec.ending = .retEnd grp cat ∧ rec.gParse = some (grp, cat) ∧
      rec.consensus = some true ∧ ∃ vg, rec.vParse = some vg :=
  guessLoop_ok_spec o remaining entire gsz 15 0 g0 grp cat h

/-- C5 witness: the immediately-agreeing oracle returns the guesser's parsed
pair, and the returning attempt carries it as its guesser parse. -/
theorem gvc_guess_c5_witness :
    ∃ rec ∈ (GVCSolver.guess oConsensusYes [] boardABCD boardABCD 4).trace,
      rec.ending = .retEnd grpABCD ("X".chars) ∧
      rec.gParse = some (grpABCD, ("X".chars)) ∧
      rec.consensus = some true ∧ ∃ vg, rec.vParse = some vg :=
  gvc_guess_c5_returned_pair oConsensusYes [] boardABCD boardABCD 4
    grpABCD ("X".chars) (by rfl)

/-- C6: every executed attempt that ends in a consensus verdict (return or
fall-through, i.e. no parse error) issued exactly three agent queries, in
order: the guesser query built from the remaining words and the feedback,
the validator query built from the remaining words, the parsed category and
the feedback, and the consensus query built from the two parsed groups. -/
theorem gvc_queries_c6 (o : Oracle) (g0 : Guesses)
    (remaining entire : List Str) (gsz : Nat) :
    ∀ rec ∈ (GVCSolver.guess o g0 remaining entire gsz).trace, ∀ grp cat,
      (rec.ending = .retEnd grp cat ∨ rec.ending = .contEnd grp cat) →
      rec.gParse = some (grp, cat) ∧
      ∃ vg, rec.vParse = some vg ∧
        rec.queries = [gQuery rec.startGuesses remaining entire gsz,
          vQuery rec.startGuesses remaining entire cat, cQuery grp vg] := by
  intro rec hrec grp cat h
  exact (guessLoop_inv o remaining entire gsz 15 0 g0 rec hrec).2.1 grp cat h

/-- C6 witness: in the immediately-agreeing run, the single executed attempt
issued the guesser, validator and consensus queries in order. -/
theorem gvc_queries_c6_witness :
    ∃ rec ∈ (GVCSolver.guess oConsensusYes [] boardABCD boardABCD 4).trace, ∃ vg,
      rec.queries = [gQuery rec.startGuesses boardABCD boardABCD 4,
        vQuery rec.startGuesses boardABCD boardABCD ("X".chars), cQuery grpABCD vg] := by
  have h0 : 0 < (GVCSolver.guess oConsensusYes [] boardABCD boardABCD 4).trace.length := by
    rw [show (GVCSolver.guess oConsensusYes [] boardABCD boardABCD 4).trace.length
      = 1 from rfl]
    omega
  have hrec := List.get_mem (GVCSolver.guess oConsensusYes [] boardABCD boardABCD 4).trace 0 h0
  obtain ⟨hg, vg, hv, hq⟩ := gvc_queries_c6 oConsensusYes [] boardABCD boardABCD 4
    _ hrec grpABCD ("X".chars) (Or.inl (by rfl))
  exact ⟨_, hrec, vg, hq⟩

/-- C9: if an attempt raises (a reply cannot be extracted or fails to
parse), the exception propagates at once — the raising attempt is the last
executed one, the call's outcome is that error — and the feedback store is
exactly what it was when the failing attempt started. -/
theorem gvc_guess_c9_parse_error (o : Oracle) (g0 : Guesses)
    (remaining entire : List Str) (gsz : Nat) (m : Str) (i : Nat)
    (hi : i < (GVCSolver.guess o g0 remaining entire gsz).trace.length)
    (hE : (((GVCSolver.guess o g0 remaining entire gsz).trace.get ⟨i, hi⟩)).ending
      = .raiseEnd m) :
    i + 1 = (GVCSolver.guess o g0 remaining entire gsz).trace.length ∧
    (GVCSolver.guess o g0 remaining entire gsz).result = .error m ∧
    (GVCSolver.guess o g0 remaining entire gsz).guesses =
      (((GVCSolver.guess o g0 remaining entire gsz).trace.get ⟨i, hi⟩)).startGuesses :=
  guessLoop_raise o remaining entire gsz 15 0 g0 m i hi hE

/-- C9 witness: with an unparsable guesser reply the call raises on the
first attempt and leaves the (empty) feedback store untouched. -/
theorem gvc_guess_c9_witness :
    (GVCSolver.guess oBadGuesser [] boardABCD boardABCD 4).result =
      .error ("GuesserAgent\x27s reply is missing both \x27Group\x27 and \x27Category\x27.".chars) ∧
    (GVCSolver.guess oBadGuesser [] boardABCD boardABCD 4).guesses = [] := by
  have h0 : 0 < (GVCSolver.guess oBadGuesser [] boardABCD boardABCD 4).trace.length := by
    rw [show (GVCSolver.guess oBadGuesser [] boardABCD boardABCD 4).trace.length
      = 1 from rfl]
    omega
  obtain ⟨h1, h2, h3⟩ := gvc_guess_c9_parse_error oBadGuesser [] boardABCD boardABCD 4
    ("GuesserAgent\x27s reply is missing both \x27Group\x27 and \x27Category\x27.".chars)
    0 h0 (by rfl)
  refine ⟨h2, ?_⟩
  rw [h3]
  rfl

/-- C2 counterexample: in a run whose single attempt reaches consensus at
once — so no attempt ever failed the consensus check — the returned
(category, word group) pair is nevertheless stored in `self.guesses`
(gvc_2.py 192-194 appends on the success path too).  This refutes the claim
that `self.guesses` holds only pairs from failed attempts and that returned
pairs are never added. -/
theorem gvc_guesses_c2_counterexample :
    (GVCSolver.guess oConsensusYes [] boardABCD boardABCD 4).result
      = .ok (grpABCD, ("X".chars)) ∧
    (GVCSolver.guess oConsensusYes [] boardABCD boardABCD 4).trace.map
      AttemptRec.consensus = [some true] ∧
    lookupA (GVCSolver.guess oConsensusYes [] boardABCD boardABCD 4).guesses
      ("X".chars) = some [grpABCD] :=
  ⟨rfl, rfl, rfl⟩

/-- C2 amended: `self.guesses` records the parsed (category, word group)
pair of every attempt that reaches the consensus step — both when consensus
is reached (the returned pair is stored as well) and when it is not; an
attempt that raises before the consensus step stores nothing. -/
theorem gvc_guesses_c2_amended (o : Oracle) (k : Nat) (g : Guesses)
    (remaining entire : List Str) (gsz : Nat) :
    (∀ grp cat,
      ((attempt o k g remaining entire gsz).1.ending = .retEnd grp cat ∨
       (attempt o k g remaining entire gsz).1.ending = .contEnd grp cat) →
      (attempt o k g remaining entire gsz).2.1 = recordGuess g cat grp ∧
      pairMem (attempt o k g remaining entire gsz).2.1 cat grp) ∧
    (∀ m, (attempt o k g remaining entire gsz).1.ending = .raiseEnd m →
      (attempt o k g remaining entire gsz).2.1 = g) := by
  constructor
  · intro grp cat h
    have hrec := attempt_record o k g remaining entire gsz grp cat h
    refine ⟨hrec, ?_⟩
    rw [hrec]
    exact pairMem_recordGuess_self g cat grp
  · intro m h
    exact (attempt_raise o k g remaining entire gsz m h).1

/-- C2 amended witness: the successful first attempt of the agreeing oracle
stores its returned pair. -/
theorem gvc_guesses_c2_witness :
    (attempt oConsensusYes 0 [] boardABCD boardABCD 4).2.1
      = recordGuess [] ("X".chars) grpABCD ∧
    pairMem (attempt oConsensusYes 0 [] boardABCD boardABCD 4).2.1 ("X".chars) grpABCD :=
  (gvc_guesses_c2_amended oConsensusYes 0 [] boardABCD boardABCD 4).1
    grpABCD ("X".chars) (Or.inl (by rfl))

/-- C3: once an attempt ends without consensus on a (category, word group)
pair, the pair is in the feedback store from then on, so every later
executed attempt — within the call starting from any store `g0`, or in a
later call that starts from this call's final store — builds its feedback
block from a store listing that pair and prepends that feedback block to
both its guesser prompt and its validator prompt. -/
theorem gvc_feedback_c3 (o : Oracle) (g0 : Guesses) (remaining entire : List Str)
    (gsz : Nat) (cat : Str) (grp : List Str) :
    (∀ i j (hi : i < (GVCSolver.guess o g0 remaining entire gsz).trace.length)
       (hj : j < (GVCSolver.guess o g0 remaining entire gsz).trace.length), i < j →
       (((GVCSolver.guess o g0 remaining entire gsz).trace.get ⟨i, hi⟩)).ending
         = .contEnd grp cat →
       attemptListsPair remaining entire cat grp
         ((GVCSolver.guess o g0 remaining entire gsz).trace.get ⟨j, hj⟩)) ∧
    (pairMem g0 cat grp →
      (∀ j (hj : j < (GVCSolver.guess o g0 remaining entire gsz).trace.length),
        attemptListsPair remaining entire cat grp
          ((GVCSolver.guess o g0 remaining entire gsz).trace.get ⟨j, hj⟩)) ∧
      pairMem (GVCSolver.guess o g0 remaining entire gsz).guesses cat grp) ∧
    (∀ i (hi : i < (GVCSolver.guess o g0 remaining entire gsz).trace.length),
      (((GVCSolver.guess o g0 remaining entire gsz).trace.get ⟨i, hi⟩)).ending
        = .contEnd grp cat →
      pairMem (GVCSolver.guess o g0 remaining entire gsz).guesses cat grp) := by
  refine ⟨?_, ?_, ?_⟩
  · intro i j hi hj hij hE
    have hmem := guessLoop_cont_later o remaining entire gsz 15 0 g0 grp cat i j hi hj hij hE
    have hinv := guessLoop_inv o remaining entire gsz 15 0 g0 _
      (List.get_mem (GVCSolver.guess o g0 remaining entire gsz).trace j hj)
    exact attemptInv_listsPair remaining entire gsz cat grp _ hinv hmem
  · intro hpm
    obtain ⟨ht, hg⟩ := guessLoop_pairMem o remaining entire gsz 15 0 g0 cat grp hpm
    refine ⟨?_, hg⟩
    intro j hj
    have hinv := guessLoop_inv o remaining entire gsz 15 0 g0 _
      (List.get_mem (GVCSolver.guess o g0 remaining entire gsz).trace j hj)
    exact attemptInv_listsPair remaining entire gsz cat grp _ hinv
      (ht _ (List.get_mem (GVCSolver.guess o g0 remaining entire gsz).trace j hj))
  · intro i hi hE
    exact guessLoop_cont_final o remaining entire gsz 15 0 g0 grp cat i hi hE

/-- C3 witness: in the run whose first attempt fails consensus on
(`X`, `a b c d`) and whose second succeeds, the second attempt builds its
feedback from a store listing that pair and prepends it to its prompts. -/
theorem gvc_feedback_c3_witness :
    ∃ (hj : 1 < (GVCSolver.guess oMix [] boardABCD boardABCD 4).trace.length),
      attemptListsPair boardABCD boardABCD ("X".chars) grpABCD
        ((GVCSolver.guess oMix [] boardABCD boardABCD 4).trace.get ⟨1, hj⟩) := by
  have hlen : (GVCSolver.guess oMix [] boardABCD boardABCD 4).trace.length = 2 := by rfl
  have hj : 1 < (GVCSolver.guess oMix [] boardABCD boardABCD 4).trace.length := by
    rw [hlen]
    omega
  have hi : 0 < (GVCSolver.guess oMix [] boardABCD boardABCD 4).trace.length := by
    rw [hlen]
    omega
  refine ⟨hj, ?_⟩
  exact (gvc_feedback_c3 oMix [] boardABCD boardABCD 4 ("X".chars) grpABCD).1
    0 1 hi hj (by omega) (by rfl)

/-- C4 witness: the bounds instantiated on a concrete run. -/
theorem gvc_guess_c4_witness :
    (GVCSolver.guess oConsensusYes [] boardABCD boardABCD 4).trace.length ≤ 15 ∧
    (GVCSolver.guess oConsensusYes [] boardABCD boardABCD 4).nextIdx ≤ 45 :=
  ⟨(gvc_guess_c4_termination oConsensusYes [] boardABCD boardABCD 4).1,
   (gvc_guess_c4_termination oConsensusYes [] boardABCD boardABCD 4).2.1⟩
